import Mathlib

/-!
Verification of the `views.py` fragment of people_link-social.

The fragment has two request handlers:
* `PostListCreateView` — `get_queryset` serves a cached, bounded list of
  recent posts; `perform_create` persists a new post and invalidates the
  cache key `recent_posts`.
* `LikePostView.post` — toggles a `Like` record for the acting user on a
  post: `Post.objects.get`, `Like.objects.get_or_create`, and a delete
  when the record already existed.

The embedding is sequential (one request at a time, matching the spec's
scheduling model); the acting user is a post-authentication identity.
Machine state carries the persistent store (posts and likes), the single
cache entry, a clock for the cache TTL, and the next auto-assigned
primary key.
-/

namespace PeopleLink

/-- Modelled from the spec: the `Post` record of `models.py`, which is not in
the fragment. Only the fields the fragment observes are kept: the primary key
and the owning user reference; content fields never influence control flow. -/
structure Post where
  id : Nat
  user : Nat
  deriving DecidableEq, Repr

/-- Modelled from the spec: the `Like` record of `models.py`, which is not in
the fragment: a (user reference, post reference) pair. -/
structure Like where
  user : Nat
  post : Nat
  deriving DecidableEq, Repr

/-- Modelled from the spec: one entry of the cache collaborator under the
single key `recent_posts` — a value together with its absolute expiry
instant (set time + TTL). -/
structure CacheEntry where
  value : List Post
  expiresAt : Nat
  deriving DecidableEq, Repr

/-- The observable state of the two external collaborators plus a clock.
`posts` is the persistent Post table ordered newest first (Modelled from the
spec: the ordering of "the 20 most-recently-ordered records" is not in the
fragment; the spec fixes creation time descending). `likes` is the persistent
Like table. `cache` is the value under the key `recent_posts`, if any.
`nextId` is the next auto-assigned Post primary key. -/
structure State where
  posts : List Post
  likes : List Like
  cache : Option CacheEntry
  now : Nat
  nextId : Nat
  deriving DecidableEq, Repr

/-- Modelled from the spec: `cache.get(key)` of the cache collaborator —
yields the stored value while it is unexpired, otherwise a miss. -/
def cacheGet (s : State) : Option (List Post) :=
  match s.cache with
  | some e => if s.now < e.expiresAt then some e.value else none
  | none => none

/-- Modelled from the spec: `cache.set(key, value, ttl)` of the cache
collaborator. -/
def cacheSet (s : State) (v : List Post) (ttl : Nat) : State :=
  { s with cache := some { value := v, expiresAt := s.now + ttl } }

/-- Modelled from the spec: `cache.delete(key)` of the cache collaborator. -/
def cacheDelete (s : State) : State :=
  { s with cache := none }

/-- `Post.objects.get(id=post_id)` — primary-key lookup; `none` models the
`Post.DoesNotExist` exception being raised. -/
def findPost (s : State) (postId : Nat) : Option Post :=
  s.posts.find? (fun p => p.id == postId)

/-- `PostListCreateView.get_queryset` (views.py lines 12-21): read the
`recent_posts` cache key; on `if not posts` (a miss, or a cached empty
sequence) query the store, truncate to 20 records, cache the result for 300
seconds and return it; otherwise return the cached sequence verbatim. -/
def get_queryset (s : State) : List Post × State :=
  match cacheGet s with
  | some ps =>
    if ps.isEmpty then
      let qs := s.posts.take 20
      (qs, cacheSet s qs 300)
    else
      (ps, s)
  | none =>
    let qs := s.posts.take 20
    (qs, cacheSet s qs 300)

/-- `PostListCreateView.perform_create` (views.py lines 23-26):
`serializer.save(user=request.user)` then `cache.delete('recent_posts')`.
`persistOk` models whether the save succeeds; on failure the raised error
propagates before `cache.delete` is reached, leaving the state untouched
(the spec: "create must fail atomically before invalidation"). -/
def perform_create (s : State) (u : Nat) (persistOk : Bool) :
    Except Unit Post × State :=
  if persistOk then
    let p : Post := { id := s.nextId, user := u }
    let s2 := { s with posts := p :: s.posts, nextId := s.nextId + 1 }
    (Except.ok p, cacheDelete s2)
  else
    (Except.error (), s)

/-- `LikePostView.post` (views.py lines 31-42): `Post.objects.get(id=post_id)`
(unguarded — a missing post raises, modelled as `Except.error`), then
`Like.objects.get_or_create(user=request.user, post=post)`; if the record was
not newly created, `like.delete()` and respond `liked: False`, else respond
`liked: True`. -/
def likePost (s : State) (u : Nat) (postId : Nat) : Except Unit Bool × State :=
  match findPost s postId with
  | none => (Except.error (), s)
  | some p =>
    match s.likes.find? (fun l => l.user == u && l.post == p.id) with
    | some l => (Except.ok false, { s with likes := s.likes.erase l })
    | none =>
      (Except.ok true, { s with likes := { user := u, post := p.id } :: s.likes })

/-- Number of Like records stored for a (user, post) pair. -/
def likeCount (s : State) (u p : Nat) : Nat :=
  s.likes.countP (fun l => l.user == u && l.post == p)

/-- Whether some Like record is stored for a (user, post) pair. -/
def likeExists (s : State) (u p : Nat) : Bool :=
  s.likes.any (fun l => l.user == u && l.post == p)

/-- The empty initial state: no posts, no likes, cold cache. -/
def initialState : State :=
  { posts := [], likes := [], cache := none, now := 0, nextId := 0 }

/-- A concrete state with one stored post and no likes. -/
def onePostState : State :=
  { posts := [{ id := 0, user := 7 }], likes := [], cache := none, now := 0,
    nextId := 1 }

/-- A concrete state whose cache holds a warm, non-empty `recent_posts`
value. -/
def warmCacheState : State :=
  { posts := [], likes := [],
    cache := some { value := [{ id := 3, user := 1 }], expiresAt := 100 },
    now := 0, nextId := 4 }

/-- States reachable from the empty store through the fragment's operations —
list, create (possibly failing), like-toggle — and the passage of time. -/
inductive Reachable : State → Prop
  | init : Reachable initialState
  | tick {s : State} (d : Nat) : Reachable s → Reachable { s with now := s.now + d }
  | list {s : State} : Reachable s → Reachable (get_queryset s).2
  | create {s : State} (u : Nat) (ok : Bool) :
      Reachable s → Reachable (perform_create s u ok).2
  | like {s : State} (u postId : Nat) :
      Reachable s → Reachable (likePost s u postId).2

/-- Every cached value in the state holds at most 20 posts. -/
def CacheBounded (s : State) : Prop :=
  ∀ e, s.cache = some e → e.value.length ≤ 20

theorem get_queryset_likes (s : State) : ((get_queryset s).2).likes = s.likes := by
  unfold get_queryset
  cases cacheGet s with
  | none => rfl
  | some ps =>
    by_cases h : ps.isEmpty <;> simp [h, cacheSet]

theorem get_queryset_posts (s : State) : ((get_queryset s).2).posts = s.posts := by
  unfold get_queryset
  cases cacheGet s with
  | none => rfl
  | some ps =>
    by_cases h : ps.isEmpty <;> simp [h, cacheSet]

theorem likePost_posts_eq (s : State) (u postId : Nat) :
    ((likePost s u postId).2).posts = s.posts := by
  rcases hp : findPost s postId with _ | p
  · simp [likePost, hp]
  · rcases hf : s.likes.find? (fun l => l.user == u && l.post == p.id) with _ | l
    · simp [likePost, hp, hf]
    · simp [likePost, hp, hf]

theorem likePost_cache_eq (s : State) (u postId : Nat) :
    ((likePost s u postId).2).cache = s.cache := by
  rcases hp : findPost s postId with _ | p
  · simp [likePost, hp]
  · rcases hf : s.likes.find? (fun l => l.user == u && l.post == p.id) with _ | l
    · simp [likePost, hp, hf]
    · simp [likePost, hp, hf]

theorem likePost_now_eq (s : State) (u postId : Nat) :
    ((likePost s u postId).2).now = s.now := by
  rcases hp : findPost s postId with _ | p
  · simp [likePost, hp]
  · rcases hf : s.likes.find? (fun l => l.user == u && l.post == p.id) with _ | l
    · simp [likePost, hp, hf]
    · simp [likePost, hp, hf]

theorem perform_create_likes (s : State) (u : Nat) (ok : Bool) :
    ((perform_create s u ok).2).likes = s.likes := by
  unfold perform_create
  cases ok <;> simp [cacheDelete]

theorem findPost_id {s : State} {postId : Nat} {p : Post}
    (hp : findPost s postId = some p) : p.id = postId := by
  unfold findPost at hp
  have h3 := List.find?_some hp
  simpa using h3

theorem like_pred_eq {u pid : Nat} {l : Like}
    (h : (l.user == u && l.post == pid) = true) : l = { user := u, post := pid } := by
  obtain ⟨lu, lp⟩ := l
  simp only [Bool.and_eq_true, beq_iff_eq] at h
  simp [h.1, h.2]

theorem find_like_none_of_not_likeExists {s : State} {u pid : Nat}
    (h : likeExists s u pid = false) :
    s.likes.find? (fun l => l.user == u && l.post == pid) = none := by
  rw [List.find?_eq_none]
  intro x hx hpx
  have h2 : likeExists s u pid = true := List.any_eq_true.mpr ⟨x, hx, hpx⟩
  rw [h] at h2
  cases h2

theorem find_like_some_of_likeExists {s : State} {u pid : Nat}
    (h : likeExists s u pid = true) :
    s.likes.find? (fun l => l.user == u && l.post == pid) =
      some { user := u, post := pid } := by
  have h2 : (s.likes.find? (fun l => l.user == u && l.post == pid)).isSome := by
    rw [List.find?_isSome]
    simpa only [likeExists, List.any_eq_true] using h
  obtain ⟨l, hl⟩ := Option.isSome_iff_exists.mp h2
  have h3 := List.find?_some hl
  have h4 : l = { user := u, post := pid } := like_pred_eq (by simpa using h3)
  rw [hl, h4]

theorem erase_self_no_like {u pid : Nat} {ls : List Like} (hnd : ls.Nodup) :
    (ls.erase { user := u, post := pid }).any
      (fun l => l.user == u && l.post == pid) = false := by
  rw [List.any_eq_false]
  intro x hx hpx
  rw [like_pred_eq hpx] at hx
  exact (hnd.mem_erase_iff.mp hx).1 rfl

theorem likePost_eq_of_no_like {s : State} {u postId : Nat} {p : Post}
    (hp : findPost s postId = some p) (h0 : likeExists s u postId = false) :
    likePost s u postId =
      (Except.ok true, { s with likes := { user := u, post := postId } :: s.likes }) := by
  have hpid : p.id = postId := findPost_id hp
  have hf : s.likes.find? (fun l => l.user == u && l.post == postId) = none :=
    find_like_none_of_not_likeExists h0
  simp [likePost, hp, hpid, hf]

theorem likePost_eq_of_like {s : State} {u postId : Nat} {p : Post}
    (hp : findPost s postId = some p) (h1 : likeExists s u postId = true) :
    likePost s u postId =
      (Except.ok false,
        { s with likes := s.likes.erase { user := u, post := postId } }) := by
  have hpid : p.id = postId := findPost_id hp
  have hf : s.likes.find? (fun l => l.user == u && l.post == postId) =
      some { user := u, post := postId } :=
    find_like_some_of_likeExists h1
  simp [likePost, hp, hpid, hf]

theorem likePost_nodup {s : State} (hnd : s.likes.Nodup) (u postId : Nat) :
    ((likePost s u postId).2).likes.Nodup := by
  rcases hp : findPost s postId with _ | p
  · simpa [likePost, hp] using hnd
  · rcases hf : s.likes.find? (fun l => l.user == u && l.post == p.id) with _ | l
    · have hmem : ({ user := u, post := p.id } : Like) ∉ s.likes := by
        intro hmem
        have h2 := List.find?_eq_none.mp hf _ hmem
        simp at h2
      simp only [likePost, hp, hf]
      exact List.nodup_cons.mpr ⟨hmem, hnd⟩
    · simp only [likePost, hp, hf]
      exact hnd.erase l

theorem reachable_likes_nodup {s : State} (h : Reachable s) : s.likes.Nodup := by
  induction h with
  | init => simp [initialState]
  | tick d hs ih => exact ih
  | list hs ih => rw [get_queryset_likes]; exact ih
  | create u ok hs ih => rw [perform_create_likes]; exact ih
  | like u postId hs ih => exact likePost_nodup ih u postId

theorem cacheBounded_get_queryset {s : State} (h : CacheBounded s) :
    CacheBounded (get_queryset s).2 := by
  intro e he
  unfold get_queryset at he
  rcases hg : cacheGet s with _ | ps
  · rw [hg] at he
    simp only [cacheSet] at he
    injection he with h2
    rw [← h2]
    simp [List.length_take]
  · rw [hg] at he
    by_cases hps : ps.isEmpty
    · simp only [hps, if_true, cacheSet] at he
      injection he with h2
      rw [← h2]
      simp [List.length_take]
    · simp only [hps, if_false, Bool.false_eq_true] at he
      exact h e he

theorem reachable_cacheBounded {s : State} (h : Reachable s) : CacheBounded s := by
  induction h with
  | init => intro e he; simp [initialState] at he
  | tick d hs ih => intro e he; exact ih e he
  | list hs ih => exact cacheBounded_get_queryset ih
  | create u ok hs ih =>
    intro e he
    cases ok with
    | true => simp [perform_create, cacheDelete] at he
    | false => exact ih e he
  | like u postId hs ih =>
    intro e he
    rw [likePost_cache_eq] at he
    exact ih e he

theorem likeCount_le_one_of_nodup {s : State} (hnd : s.likes.Nodup) (u p : Nat) :
    likeCount s u p ≤ 1 := by
  have hcc : likeCount s u p = s.likes.count { user := u, post := p } := by
    show s.likes.countP (fun l => l.user == u && l.post == p) =
      s.likes.countP (· == ({ user := u, post := p } : Like))
    apply List.countP_congr
    intro l hl
    constructor
    · intro hpl
      rw [like_pred_eq hpl]
      exact beq_self_eq_true _
    · intro hbe
      have h2 : l = { user := u, post := p } := beq_iff_eq.mp hbe
      rw [h2]
      simp
  rw [hcc]
  exact List.nodup_iff_count_le_one.mp hnd _

/-- C1: like-uniqueness invariant — in every state reachable through the
fragment's operations (list, create, like-toggle, and time passing), at most
one Like record exists in the store for every (user, post) pair; since
`Reachable` is closed under the three operations, each of them preserves the
invariant from any reachable state. -/
theorem likeUniqueness_invariant {s : State} (h : Reachable s) (u p : Nat) :
    likeCount s u p ≤ 1 :=
  likeCount_le_one_of_nodup (reachable_likes_nodup h) u p

theorem likeUniqueness_invariant_witness :
    likeCount (likePost (perform_create initialState 7 true).2 5 0).2 5 0 ≤ 1 :=
  likeUniqueness_invariant
    (Reachable.like 5 0 (Reachable.create 7 true Reachable.init)) 5 0

/-- C2: like-toggle single-call semantics — for an existing post and a store
respecting the Like uniqueness constraint, one call creates the Like record
for (user, post) and responds liked=true when none existed before, and
deletes the existing record and responds liked=false when one did. -/
theorem likeToggle_single_call (s : State) (u postId : Nat) (p : Post)
    (hp : findPost s postId = some p) (hnd : s.likes.Nodup) :
    (likeExists s u postId = false →
      likePost s u postId =
        (Except.ok true,
          { s with likes := { user := u, post := postId } :: s.likes })) ∧
    (likeExists s u postId = true →
      (likePost s u postId).1 = Except.ok false ∧
      ((likePost s u postId).2).likes =
        s.likes.erase { user := u, post := postId } ∧
      likeExists (likePost s u postId).2 u postId = false) := by
  constructor
  · intro h0
    exact likePost_eq_of_no_like hp h0
  · intro h1
    rw [likePost_eq_of_like hp h1]
    refine ⟨rfl, rfl, ?_⟩
    show (s.likes.erase { user := u, post := postId }).any
      (fun l => l.user == u && l.post == postId) = false
    exact erase_self_no_like hnd

theorem likeToggle_single_call_witness :
    findPost onePostState 0 = some { id := 0, user := 7 } ∧
    likePost onePostState 5 0 =
      (Except.ok true,
        { posts := [{ id := 0, user := 7 }],
          likes := [{ user := 5, post := 0 }], cache := none, now := 0,
          nextId := 1 }) :=
  ⟨rfl, (likeToggle_single_call onePostState 5 0 { id := 0, user := 7 } rfl
    List.nodup_nil).1 rfl⟩

/-- C3: toggle idempotence over pairs — for an existing post and a user with
no Like record for the pair, two consecutive like-toggle calls respond
liked=true then liked=false, leave zero Like records for the pair, and
restore the store (and the whole state) to its initial value. -/
theorem likeToggle_twice_restores (s : State) (u postId : Nat) (p : Post)
    (hp : findPost s postId = some p) (h0 : likeExists s u postId = false) :
    (likePost s u postId).1 = Except.ok true ∧
    (likePost (likePost s u postId).2 u postId).1 = Except.ok false ∧
    likeExists (likePost (likePost s u postId).2 u postId).2 u postId = false ∧
    (likePost (likePost s u postId).2 u postId).2 = s := by
  have e1 := likePost_eq_of_no_like hp h0
  rw [e1]
  have hp1 : findPost
      { s with likes := { user := u, post := postId } :: s.likes } postId =
      some p := hp
  have h11 : likeExists
      { s with likes := { user := u, post := postId } :: s.likes } u postId =
      true := by
    simp [likeExists]
  rw [likePost_eq_of_like hp1 h11]
  have her : (({ user := u, post := postId } : Like) :: s.likes).erase
      { user := u, post := postId } = s.likes :=
    List.erase_cons_head _ _
  refine ⟨rfl, rfl, ?_, ?_⟩
  · show ((({ user := u, post := postId } : Like) :: s.likes).erase { user := u, post := postId }).any (fun l => l.user == u && l.post == postId) = false
    rw [her]
    exact h0
  · show ({ s with likes := (({ user := u, post := postId } : Like) :: s.likes).erase { user := u, post := postId } } : State) = s
    rw [her]

theorem likeToggle_twice_restores_witness :
    (likePost onePostState 9 0).1 = Except.ok true ∧
    (likePost (likePost onePostState 9 0).2 9 0).1 = Except.ok false ∧
    likeExists (likePost (likePost onePostState 9 0).2 9 0).2 9 0 = false ∧
    (likePost (likePost onePostState 9 0).2 9 0).2 = onePostState :=
  likeToggle_twice_restores _ 9 0 { id := 0, user := 7 } rfl rfl

/-- C4: not-found behaviour — when no post has the requested id, the handler
body raises `Post.DoesNotExist` out of the unguarded `Post.objects.get` call
(the `Except.error` outcome) with the store and cache left unchanged; nothing
in the fragment converts this fault into a handled 404-equivalent response,
so it surfaces as a server fault, contradicting the claim's "handled client
error". -/
theorem likeToggle_missing_post_unhandled (s : State) (u postId : Nat)
    (h : findPost s postId = none) :
    likePost s u postId = (Except.error (), s) := by
  simp [likePost, h]

theorem likeToggle_missing_post_unhandled_witness :
    findPost initialState 1 = none ∧
    likePost initialState 1 1 = (Except.error (), initialState) :=
  ⟨rfl, likeToggle_missing_post_unhandled initialState 1 1 rfl⟩

/-- C5: list operation semantics — a present, unexpired and non-empty cached
value under `recent_posts` is returned verbatim with the state untouched (no
store query, no cache write); otherwise the store is queried, the result is
truncated to 20 records, cached with expiry now + 300 seconds, and
returned. -/
theorem get_queryset_cache_semantics (s : State) :
    (∀ ps, cacheGet s = some ps → ps.isEmpty = false →
      get_queryset s = (ps, s)) ∧
    ((cacheGet s = none ∨ cacheGet s = some []) →
      get_queryset s =
        (s.posts.take 20,
          { s with
              cache := some { value := s.posts.take 20, expiresAt := s.now + 300 } })) := by
  constructor
  · intro ps hps hne
    simp [get_queryset, hps, hne]
  · intro h
    rcases h with h | h
    · simp [get_queryset, h, cacheSet]
    · simp [get_queryset, h, cacheSet]

theorem get_queryset_cache_semantics_witness :
    cacheGet warmCacheState = some [{ id := 3, user := 1 }] ∧
    get_queryset warmCacheState = ([{ id := 3, user := 1 }], warmCacheState) :=
  ⟨rfl, (get_queryset_cache_semantics _).1 [{ id := 3, user := 1 }] rfl rfl⟩

/-- C6: cache coherence / read-after-write — after a successful create the
`recent_posts` key is gone, so the very next list call misses the cache and
its result contains the newly created post. -/
theorem create_invalidates_cache_next_list_sees_post (s : State) (u : Nat) :
    (perform_create s u true).1 = Except.ok { id := s.nextId, user := u } ∧
    ((perform_create s u true).2).cache = none ∧
    ({ id := s.nextId, user := u } : Post) ∈
      (get_queryset (perform_create s u true).2).1 := by
  refine ⟨rfl, rfl, ?_⟩
  have hmiss : cacheGet (perform_create s u true).2 = none := rfl
  have hq : (get_queryset (perform_create s u true).2).1 =
      (({ id := s.nextId, user := u } : Post) :: s.posts).take 20 := by
    simp [get_queryset, cacheGet, perform_create, cacheDelete]
  rw [hq]
  have h20 : (({ id := s.nextId, user := u } : Post) :: s.posts).take 20 =
      ({ id := s.nextId, user := u } : Post) :: s.posts.take 19 := rfl
  rw [h20]
  exact List.mem_cons_self _ _

/-- C7: bounded list size — in every reachable state, however the cache was
populated by earlier list and create operations, the list operation returns
at most 20 posts. -/
theorem listBounded (s : State) (h : Reachable s) :
    (get_queryset s).1.length ≤ 20 := by
  have hcb := reachable_cacheBounded h
  rcases hg : cacheGet s with _ | ps
  · simp [get_queryset, hg, List.length_take]
  · by_cases hps : ps.isEmpty
    · simp [get_queryset, hg, hps, List.length_take]
    · have hlen : ps.length ≤ 20 := by
        unfold cacheGet at hg
        rcases hc : s.cache with _ | e
        · rw [hc] at hg
          cases hg
        · rw [hc] at hg
          by_cases ht : s.now < e.expiresAt
          · simp only [ht, if_true] at hg
            injection hg with h2
            rw [← h2]
            exact hcb e hc
          · simp only [ht, if_false] at hg
            cases hg
      simpa [get_queryset, hg, hps] using hlen

theorem listBounded_witness :
    (get_queryset initialState).1.length ≤ 20 :=
  listBounded initialState Reachable.init

/-- C8: create atomicity on failure — when persisting the new post fails, the
raised error propagates before `cache.delete` runs, so the cache (indeed the
whole state) is unchanged and the operation reports the error. -/
theorem perform_create_failure_preserves_cache (s : State) (u : Nat) :
    (perform_create s u false).1 = Except.error () ∧
    ((perform_create s u false).2).cache = s.cache ∧
    (perform_create s u false).2 = s :=
  ⟨rfl, rfl, rfl⟩

/-- C9: frame effect of the like-toggle — no call to the like-toggle, whether
it creates or deletes a Like record or fails on a missing post, changes the
value under the `recent_posts` cache key. -/
theorem likeToggle_cache_frame (s : State) (u postId : Nat) :
    ((likePost s u postId).2).cache = s.cache ∧
    cacheGet (likePost s u postId).2 = cacheGet s := by
  refine ⟨likePost_cache_eq s u postId, ?_⟩
  unfold cacheGet
  rw [likePost_cache_eq, likePost_now_eq]

/-- C10: the like-toggle's response truthfully reflects the resulting state —
for an existing post and a reachable store, the returned liked flag is true
exactly when a Like record for (user, post) exists immediately after the
call. -/
theorem likeToggle_response_matches_state (s : State) (u postId : Nat)
    (p : Post) (hp : findPost s postId = some p) (hr : Reachable s) :
    ∃ b, (likePost s u postId).1 = Except.ok b ∧
      ((b = true) ↔ likeExists (likePost s u postId).2 u postId = true) := by
  have hnd := reachable_likes_nodup hr
  by_cases hx : likeExists s u postId = true
  · rw [likePost_eq_of_like hp hx]
    refine ⟨false, rfl, ?_⟩
    have hfalse : likeExists
        { s with likes := s.likes.erase { user := u, post := postId } }
        u postId = false :=
      erase_self_no_like hnd
    simp [hfalse]
  · have h0 : likeExists s u postId = false := by
      cases hb : likeExists s u postId with
      | true => exact absurd hb hx
      | false => rfl
    rw [likePost_eq_of_no_like hp h0]
    refine ⟨true, rfl, ?_⟩
    have htrue : likeExists
        { s with likes := { user := u, post := postId } :: s.likes }
        u postId = true := by
      simp [likeExists]
    simp [htrue]

theorem likeToggle_response_matches_state_witness :
    ∃ b, (likePost (perform_create initialState 7 true).2 5 0).1 =
        Except.ok b ∧
      ((b = true) ↔
        likeExists (likePost (perform_create initialState 7 true).2 5 0).2
          5 0 = true) :=
  likeToggle_response_matches_state _ 5 0 { id := 0, user := 7 } rfl
    (Reachable.create 7 true Reachable.init)

end PeopleLink
